import Mathlib

/-!
Verification of the isengard2 incremental-build cache database layer
(`isengard2/_db.py`): a shallow embedding of the SQLite-backed store and
its operations, plus theorems checking the specification.

Modelling decisions:
* Fingerprints (opaque byte sequences) are `List Nat`; target identifiers
  (`ResolvedTargetID`, an opaque string) are `String`; run identifiers are `Nat`.
* Each SQLite table is a list of rows in insertion order.  `SELECT ... fetchone`
  is `List.find?` (SQLite returns rows of these point queries in storage
  order, which for these tables is insertion order).
* An `INTEGER PRIMARY KEY` rowid assigned by SQLite on insert is
  `max of existing ids + 1` (the table has no AUTOINCREMENT clause).
* The `with self.con:` transaction of `set_rule_previous_run` commits the
  final state on success and restores the pre-call state when any statement
  raises, re-raising the error (sqlite3 connection context-manager semantics).
-/

/-- `DB_VERSION = 1` in `_db.py`. -/
def DB_VERSION : Int := 1

/-- `VERSION_MAGIC_NUMBER = 76388` in `_db.py`. -/
def VERSION_MAGIC_NUMBER : Nat := 76388

/-- One row of the `rule_run` table: `_id INTEGER PRIMARY KEY`,
`fingerprint BLOB UNIQUE NOT NULL`. -/
structure RuleRunRow where
  id : Nat
  fingerprint : List Nat
deriving DecidableEq, Repr

/-- One row of the `target_output` table: `_id INTEGER PRIMARY KEY`,
`run INTEGER NOT NULL`, `target TEXT NOT NULL`, `fingerprint BLOB NOT NULL`,
with constraint `UNIQUE(run, target)`. -/
structure TargetOutputRow where
  id : Nat
  run : Nat
  target : String
  fingerprint : List Nat
deriving DecidableEq, Repr

/-- The data content of the store: the three tables created by
`SQL_CREATE_VERSION_TABLE`, `SQL_CREATE_RULE_RUN_TABLE` and
`SQL_CREATE_TARGET_OUTPUT_TABLE`.  `versionRows` holds `(magic, value)`
pairs. -/
structure DBState where
  ruleRun : List RuleRunRow
  targetOutput : List TargetOutputRow
  versionRows : List (Nat × Int)
deriving DecidableEq, Repr

/-- The rowid SQLite assigns to a fresh row: one more than the largest
rowid currently in the table (no AUTOINCREMENT is declared). -/
def maxId (ids : List Nat) : Nat := ids.foldr max 0

/-- Errors raised inside the `set_rule_previous_run` transaction:
`uniqueConstraint` is sqlite3.IntegrityError from violating
`UNIQUE(run, target)`; `assertFailed` is the `assert run_id is not None`. -/
inductive TxError where
  | uniqueConstraint
  | assertFailed
deriving DecidableEq, Repr

/-- `SQL_FETCH_RULE_RUN`: `SELECT _id FROM rule_run WHERE fingerprint = ?`,
then `row[0] if row else None`.  This is the body of
`DB.fetch_rule_previous_run`. -/
def fetch_rule_previous_run (st : DBState) (fingerprint : List Nat) : Option Nat :=
  (st.ruleRun.find? (fun r => r.fingerprint == fingerprint)).map RuleRunRow.id

/-- `SQL_UPDATE_RULE_RUN`:
`INSERT INTO rule_run(fingerprint) VALUES(?) ON CONFLICT(fingerprint) DO
UPDATE SET fingerprint = excluded.fingerprint`.  On conflict the update
writes the same fingerprint back, so the row is unchanged in value; on no
conflict a fresh row is appended with a fresh rowid. -/
def upsertRuleRun (st : DBState) (fingerprint : List Nat) : DBState :=
  if st.ruleRun.any (fun r => r.fingerprint == fingerprint) then st
  else { st with ruleRun :=
          st.ruleRun ++ [⟨maxId (st.ruleRun.map RuleRunRow.id) + 1, fingerprint⟩] }

/-- `SQL_DELETE_TARGET_OUTPUTS`: `DELETE FROM target_output WHERE run = ?`. -/
def deleteTargetOutputs (st : DBState) (run : Nat) : DBState :=
  { st with targetOutput := st.targetOutput.filter (fun r => !(r.run == run)) }

/-- `SQL_INSERT_TARGET_OUTPUT`:
`INSERT INTO target_output(run, target, fingerprint) VALUES(?, ?, ?)`.
Fails with an IntegrityError when the `UNIQUE(run, target)` constraint is
violated. -/
def insertTargetOutput (st : DBState) (run : Nat) (target : String)
    (fingerprint : List Nat) : Except TxError DBState :=
  if st.targetOutput.any (fun r => r.run == run && r.target == target) then
    .error .uniqueConstraint
  else
    .ok { st with targetOutput :=
            st.targetOutput ++
              [⟨maxId (st.targetOutput.map TargetOutputRow.id) + 1, run, target, fingerprint⟩] }

/-- `cur.executemany(SQL_INSERT_TARGET_OUTPUT, [(run_id, *o) for o in outputs])`:
the rows are inserted one by one, in sequence order; the first failing
insert aborts the statement. -/
def insertTargetOutputs (st : DBState) (run : Nat)
    (outputs : List (String × List Nat)) : Except TxError DBState :=
  match outputs with
  | [] => .ok st
  | (target, fp) :: rest =>
      match insertTargetOutput st run target fp with
      | .error e => .error e
      | .ok st1 => insertTargetOutputs st1 run rest

/-- The body of the `with self.con:` block of `DB.set_rule_previous_run`:
upsert the fingerprint, fetch the run id (asserting it exists), delete the
run's old target_output rows, bulk-insert the new ones. -/
def setRulePreviousRunBody (st : DBState) (fingerprint : List Nat)
    (outputs : List (String × List Nat)) : Except TxError (DBState × Nat) :=
  match fetch_rule_previous_run (upsertRuleRun st fingerprint) fingerprint with
  | none => .error .assertFailed
  | some runId =>
      match insertTargetOutputs (deleteTargetOutputs (upsertRuleRun st fingerprint) runId)
          runId outputs with
      | .error e => .error e
      | .ok st3 => .ok (st3, runId)

/-- `DB.set_rule_previous_run`: the transaction wrapper `with self.con:`
commits the body's final state on success; when any statement inside
raises, the whole transaction is rolled back (the store is exactly the
pre-call state) and the error propagates to the caller. -/
def set_rule_previous_run (st : DBState) (fingerprint : List Nat)
    (outputs : List (String × List Nat)) : DBState × Except TxError Nat :=
  match setRulePreviousRunBody st fingerprint outputs with
  | .ok (st3, runId) => (st3, .ok runId)
  | .error e => (st, .error e)

/-- `SQL_FETCH_TARGET_OUTPUT`:
`SELECT fingerprint FROM target_output WHERE run = ? AND target = ?`, then
`row[0] if row else None`.  This is the body of
`DB.fetch_target_output_fingerprint`. -/
def fetch_target_output_fingerprint (st : DBState) (runId : Nat)
    (target : String) : Option (List Nat) :=
  (st.targetOutput.find? (fun r => r.run == runId && r.target == target)).map
    TargetOutputRow.fingerprint

/-! ### `init_or_reset_db` and `DB.connect`

The interaction of `init_or_reset_db` with the filesystem and sqlite3 is
embedded through an environment record describing how each external step
behaves at the given path, and the function is a case analysis on it that
mirrors the Python control flow, tracking how many sqlite3 connections
remain open when the function returns or raises. -/

/-- Outcome of `con.execute(SQL_FETCH_VERSION_ROW)` followed by
`cur.fetchone()`:
* `opError` — the execute raises sqlite3.OperationalError (version table
  absent, or its layout malformed so the query fails);
* `noRow` — the query succeeds but no row has `magic = 76388`, so
  `fetchone()` returns Python None;
* `value v` — the marker row exists and holds version value `v`. -/
inductive VersionRead where
  | opError
  | noRow
  | value (v : Int)
deriving DecidableEq, Repr

/-- Outcome of `path.unlink()`: succeeds, raises FileNotFoundError, or
raises some other exception. -/
inductive UnlinkOutcome where
  | ok
  | fileNotFound
  | otherError
deriving DecidableEq, Repr

/-- How the external world at `path` behaves during one
`init_or_reset_db(path)` call: whether each sqlite3/filesystem step
succeeds, what the version read returns, and what data content the
existing database holds. -/
structure OpenEnv where
  /-- the first `sqlite3_connect(path)` raises OperationalError -/
  openFails : Bool
  /-- result of reading the version marker row -/
  read : VersionRead
  /-- data content of the store at `path` (meaningful when readable) -/
  content : DBState
  /-- result of `path.unlink()` on the reset path -/
  unlink : UnlinkOutcome
  /-- the second `sqlite3_connect(path)` (after unlink) raises OperationalError -/
  reopenFails : Bool
  /-- one of the four schema-recreation statements raises OperationalError -/
  recreateFails : Bool
deriving DecidableEq, Repr

/-- How `init_or_reset_db` terminates:
* `ready st` — returns a connection onto a store with content `st`;
* `dbError` — raises IsengardDBError;
* `typeError` — raises an uncaught TypeError (unpacking `cur.fetchone()`
  when it returned None). -/
inductive InitResult where
  | ready (st : DBState)
  | dbError
  | typeError
deriving DecidableEq, Repr

/-- The store recreated from scratch on the reset path: the three
`CREATE TABLE` statements make empty tables and `SQL_INIT_VERSION_ROW`
inserts the single marker row `(VERSION_MAGIC_NUMBER, DB_VERSION)`. -/
def freshDB : DBState :=
  { ruleRun := [], targetOutput := [], versionRows := [(VERSION_MAGIC_NUMBER, DB_VERSION)] }

/-- The `if current_db_version != DB_VERSION:` block of `init_or_reset_db`:
`con.close()` (zero connections open from here on), `path.unlink()`,
reconnect, recreate the schema inside `with con:`. -/
def initReset (env : OpenEnv) : InitResult × Nat :=
  match env.unlink with
  | .otherError => (.dbError, 0)
  | _ =>
      if env.reopenFails then (.dbError, 0)
      else if env.recreateFails then (.dbError, 1)
      else (.ready freshDB, 1)

/-- `init_or_reset_db(path)`, step for step.  The second component counts
the sqlite3 connections left open when the call returns or raises:
* open fails → IsengardDBError, nothing opened;
* version read unpacks None → TypeError propagates with the connection open;
* compatible version → the existing connection is returned;
* incompatible → the `initReset` block runs. -/
def init_or_reset_db (env : OpenEnv) : InitResult × Nat :=
  if env.openFails then (.dbError, 0)
  else
    match env.read with
    | .noRow => (.typeError, 1)
    | .opError =>
        -- `current_db_version = -1`, never equal to DB_VERSION: reset path
        initReset env
    | .value v =>
        if v = DB_VERSION then (.ready env.content, 1)
        else initReset env

/-- `DB.connect(path)` as a scope: `con = init_or_reset_db(path)`, then
`try: yield DB(path, con) finally: con.close()`.  `bodyFails` says whether
the caller's `with` body raises.  Returns how the scope terminates and how
many connections remain open after it ends (on either path through the
try/finally the connection obtained from `init_or_reset_db` is closed; an
exception escaping `init_or_reset_db` itself skips the try/finally). -/
def connectScope (env : OpenEnv) (_bodyFails : Bool) : InitResult × Nat :=
  match init_or_reset_db env with
  | (.ready st, n) => (.ready st, n - 1)
  | (r, n) => (r, n)

/-- The version read of `init_or_reset_db` detects the store as
incompatible: the execute raised OperationalError (`current_db_version`
set to `-1`) or the marker value differs from `DB_VERSION`. -/
def detectedIncompatible (env : OpenEnv) : Prop :=
  env.read = .opError ∨ ∃ v, env.read = .value v ∧ v ≠ DB_VERSION

/-! ### Helper lemmas -/

theorem le_maxId_of_mem {ids : List Nat} {x : Nat} (hx : x ∈ ids) : x ≤ maxId ids := by
  induction ids with
  | nil => cases hx
  | cons a l ih =>
      rcases List.mem_cons.1 hx with rfl | hmem
      · exact le_max_left _ _
      · exact le_trans (ih hmem) (le_max_right _ _)

theorem upsertRuleRun_targetOutput (st : DBState) (f : List Nat) :
    (upsertRuleRun st f).targetOutput = st.targetOutput := by
  unfold upsertRuleRun; split <;> rfl

theorem upsertRuleRun_versionRows (st : DBState) (f : List Nat) :
    (upsertRuleRun st f).versionRows = st.versionRows := by
  unfold upsertRuleRun; split <;> rfl

theorem upsertRuleRun_of_mem {st : DBState} {f : List Nat}
    (h : ∃ row ∈ st.ruleRun, row.fingerprint = f) : upsertRuleRun st f = st := by
  unfold upsertRuleRun
  rcases h with ⟨row, hmem, hfp⟩
  have : st.ruleRun.any (fun r => r.fingerprint == f) = true :=
    List.any_eq_true.2 ⟨row, hmem, by simp [hfp]⟩
  simp [this]

/-- After the upsert, a row with the given fingerprint is always found. -/
theorem fetch_after_upsert (st : DBState) (f : List Nat) :
    ∃ row, (upsertRuleRun st f).ruleRun.find? (fun r => r.fingerprint == f) = some row ∧
      row.fingerprint = f := by
  unfold upsertRuleRun
  by_cases hany : st.ruleRun.any (fun r => r.fingerprint == f) = true
  · rcases List.any_eq_true.1 hany with ⟨row, hmem, hfp⟩
    simp only [hany, if_true]
    have : (st.ruleRun.find? (fun r => r.fingerprint == f)).isSome := by
      rw [Option.isSome_iff_ne_none]
      intro hnone
      exact (List.find?_eq_none.1 hnone row hmem) hfp
    rcases Option.isSome_iff_exists.1 this with ⟨row2, hrow2⟩
    exact ⟨row2, hrow2, by simpa using List.find?_some hrow2⟩
  · rw [Bool.not_eq_true] at hany
    simp only [hany, Bool.false_eq_true, if_false]
    refine ⟨⟨maxId (st.ruleRun.map RuleRunRow.id) + 1, f⟩, ?_, rfl⟩
    rw [List.find?_append]
    have hnone : st.ruleRun.find? (fun r => r.fingerprint == f) = none := by
      rw [List.find?_eq_none]
      exact List.any_eq_false.1 hany
    simp [hnone]

theorem fetch_rule_previous_run_after_upsert (st : DBState) (f : List Nat) :
    ∃ r, fetch_rule_previous_run (upsertRuleRun st f) f = some r := by
  rcases fetch_after_upsert st f with ⟨row, hfind, _⟩
  exact ⟨row.id, by simp [fetch_rule_previous_run, hfind]⟩


theorem insertTargetOutput_ok_elim {st st' : DBState} {run : Nat} {t : String}
    {fp : List Nat} (h : insertTargetOutput st run t fp = .ok st') :
    st.targetOutput.any (fun r => r.run == run && r.target == t) = false ∧
    st' = { st with targetOutput :=
              st.targetOutput ++
                [⟨maxId (st.targetOutput.map TargetOutputRow.id) + 1, run, t, fp⟩] } := by
  unfold insertTargetOutput at h
  by_cases hany : st.targetOutput.any (fun r => r.run == run && r.target == t) = true
  · rw [if_pos hany] at h; cases h
  · rw [if_neg hany] at h
    exact ⟨Bool.not_eq_true _ ▸ Bool.of_not_eq_true hany, (Except.ok.inj h).symm⟩

theorem insertTargetOutputs_ok_ruleRun {run : Nat} {outs : List (String × List Nat)} :
    ∀ {st st' : DBState}, insertTargetOutputs st run outs = .ok st' →
      st'.ruleRun = st.ruleRun ∧ st'.versionRows = st.versionRows := by
  induction outs with
  | nil => intro st st' h; cases h; exact ⟨rfl, rfl⟩
  | cons o rest ih =>
      intro st st' h
      obtain ⟨t, fp⟩ := o
      unfold insertTargetOutputs at h
      split at h
      · cases h
      · next st1 hins =>
          obtain ⟨-, rfl⟩ := insertTargetOutput_ok_elim hins
          have hr := ih h
          exact ⟨hr.1, hr.2⟩

theorem insertTargetOutputs_ok_frame {run : Nat} {outs : List (String × List Nat)} :
    ∀ {st st' : DBState}, insertTargetOutputs st run outs = .ok st' →
      st'.targetOutput.filter (fun row => !(row.run == run)) =
        st.targetOutput.filter (fun row => !(row.run == run)) := by
  induction outs with
  | nil => intro st st' h; cases h; rfl
  | cons o rest ih =>
      intro st st' h
      obtain ⟨t, fp⟩ := o
      unfold insertTargetOutputs at h
      split at h
      · cases h
      · next st1 hins =>
          obtain ⟨-, rfl⟩ := insertTargetOutput_ok_elim hins
          have hr := ih h
          rw [hr]
          simp [List.filter_append]

/-- After a successful bulk insert for `run`, a point lookup on `run` sees
the pre-existing answer first and otherwise the first inserted pair with
that target. -/
theorem insertTargetOutputs_fetch {run : Nat} {outs : List (String × List Nat)} :
    ∀ {st st' : DBState}, insertTargetOutputs st run outs = .ok st' → ∀ t : String,
      (st'.targetOutput.find? (fun row => row.run == run && row.target == t)).map
          TargetOutputRow.fingerprint
        = ((st.targetOutput.find? (fun row => row.run == run && row.target == t)).map
              TargetOutputRow.fingerprint).or
            ((outs.find? (fun o => o.1 == t)).map Prod.snd) := by
  induction outs with
  | nil =>
      intro st st' h t
      cases h
      simp [Option.or_none]
  | cons o rest ih =>
      intro st st' h t
      obtain ⟨t0, fp0⟩ := o
      unfold insertTargetOutputs at h
      split at h
      · cases h
      · next st1 hins =>
          obtain ⟨hany, rfl⟩ := insertTargetOutput_ok_elim hins
          have hr := ih h t
          rw [hr]
          by_cases ht : t0 = t
          · subst ht
            have hnone :
                st.targetOutput.find? (fun row => row.run == run && row.target == t0) = none := by
              rw [List.find?_eq_none]
              exact List.any_eq_false.1 hany
            simp only [List.find?_append, hnone, Option.none_or]
            rw [List.find?_cons_of_pos]
            · simp [List.find?_cons_of_pos]
            · simp
          · have hne : ((⟨maxId (st.targetOutput.map TargetOutputRow.id) + 1, run, t0,
                fp0⟩ : TargetOutputRow).run == run &&
                (⟨maxId (st.targetOutput.map TargetOutputRow.id) + 1, run, t0,
                fp0⟩ : TargetOutputRow).target == t) = false := by
              simp [ht]
            simp only [List.find?_append, List.find?_cons_of_neg, hne]
            rw [List.find?_cons_of_neg _ (by simp [ht])]
            rw [List.find?_cons_of_neg _ (by simp [ht])]
            cases hfind : st.targetOutput.find? (fun row => row.run == run && row.target == t) <;>
              simp [Option.none_or]

/-- If a `(run, t)` row is already stored and `t` occurs among the targets
still to insert, the bulk insert hits the `UNIQUE(run, target)` constraint. -/
theorem insertTargetOutputs_error_of_present {run : Nat} {t : String}
    {outs : List (String × List Nat)} :
    ∀ {st : DBState},
      st.targetOutput.any (fun r => r.run == run && r.target == t) = true →
      t ∈ outs.map Prod.fst →
      insertTargetOutputs st run outs = .error .uniqueConstraint := by
  induction outs with
  | nil => intro st _ ht; cases ht
  | cons o rest ih =>
      intro st hany ht
      obtain ⟨t0, fp0⟩ := o
      unfold insertTargetOutputs
      by_cases h0 : st.targetOutput.any (fun r => r.run == run && r.target == t0) = true
      · unfold insertTargetOutput
        rw [if_pos h0]
      · unfold insertTargetOutput
        rw [if_neg h0]
        have htne : t ≠ t0 := by
          intro he; subst he; exact h0 hany
        have ht' : t ∈ rest.map Prod.fst := by
          rcases List.mem_cons.1 ht with he | h
          · exact absurd he htne
          · exact h
        apply ih _ ht'
        simp only [List.any_append, hany]
        rfl

/-- Duplicate targets in one call always violate `UNIQUE(run, target)`:
once the first copy is inserted, the second insert finds it. -/
theorem insertTargetOutputs_error_of_dup {run : Nat} {outs : List (String × List Nat)} :
    ∀ {st : DBState}, ¬ (outs.map Prod.fst).Nodup →
      insertTargetOutputs st run outs = .error .uniqueConstraint := by
  induction outs with
  | nil => intro st hdup; exact absurd List.nodup_nil hdup
  | cons o rest ih =>
      intro st hdup
      obtain ⟨t0, fp0⟩ := o
      rw [List.map_cons, List.nodup_cons] at hdup
      push_neg at hdup
      unfold insertTargetOutputs
      by_cases h0 : st.targetOutput.any (fun r => r.run == run && r.target == t0) = true
      · unfold insertTargetOutput
        rw [if_pos h0]
      · unfold insertTargetOutput
        rw [if_neg h0]
        by_cases hmem : t0 ∈ rest.map Prod.fst
        · apply insertTargetOutputs_error_of_present _ hmem
          simp
        · exact ih (fun hnd => (hdup hmem hnd).elim)

/-- A successful bulk insert implies the call's targets were pairwise
distinct. -/
theorem insertTargetOutputs_ok_nodup {st st' : DBState} {run : Nat}
    {outs : List (String × List Nat)}
    (h : insertTargetOutputs st run outs = .ok st') : (outs.map Prod.fst).Nodup := by
  by_contra hdup
  rw [insertTargetOutputs_error_of_dup hdup] at h
  cases h

/-- Unfolding a successful `set_rule_previous_run`: the returned id is the
one fetched right after the upsert, and the final state is the result of
the delete-then-bulk-insert on the upserted state. -/
theorem set_rule_previous_run_ok_elim {st st' : DBState} {f : List Nat}
    {outs : List (String × List Nat)} {r : Nat}
    (h : set_rule_previous_run st f outs = (st', .ok r)) :
    fetch_rule_previous_run (upsertRuleRun st f) f = some r ∧
    insertTargetOutputs (deleteTargetOutputs (upsertRuleRun st f) r) r outs = .ok st' := by
  unfold set_rule_previous_run at h
  split at h
  · next st3 runId heq =>
      obtain ⟨rfl, hr⟩ := Prod.mk.injEq .. ▸ h
      obtain rfl : runId = r := Except.ok.inj hr
      unfold setRulePreviousRunBody at heq
      split at heq
      · cases heq
      · next rid hf =>
          split at heq
          · cases heq
          · next st4 hins =>
              obtain ⟨rfl, rfl⟩ := Prod.mk.injEq .. ▸ Except.ok.inj heq
              exact ⟨hf, hins⟩
  · next e heq =>
      obtain ⟨-, h2⟩ := Prod.mk.injEq .. ▸ h
      cases h2

/-- After `DELETE FROM target_output WHERE run = ?`, a point lookup on that
run finds nothing. -/
theorem fetch_delete_none (st : DBState) (r : Nat) (t : String) :
    (deleteTargetOutputs st r).targetOutput.find?
      (fun row => row.run == r && row.target == t) = none := by
  rw [List.find?_eq_none]
  intro x hx
  obtain ⟨-, hpred⟩ := List.mem_filter.1 hx
  simp only [Bool.not_eq_true'] at hpred
  simp [hpred]

/-- With pairwise-distinct first components, `find?` on the first component
returns the member pair itself. -/
theorem find?_fst_of_mem_nodup {l : List (String × List Nat)} {t : String} {fp : List Nat}
    (hnd : (l.map Prod.fst).Nodup) (hmem : (t, fp) ∈ l) :
    l.find? (fun o => o.1 == t) = some (t, fp) := by
  induction l with
  | nil => cases hmem
  | cons o rest ih =>
      obtain ⟨t0, fp0⟩ := o
      rw [List.map_cons, List.nodup_cons] at hnd
      rcases List.mem_cons.1 hmem with he | hmem2
      · obtain ⟨rfl, rfl⟩ := Prod.mk.injEq .. ▸ he
        exact List.find?_cons_of_pos _ (by simp)
      · have ht0 : t0 ≠ t := by
          intro he; subst he
          exact hnd.1 (List.mem_map.2 ⟨(t0, fp), hmem2, rfl⟩)
        rw [List.find?_cons_of_neg _ (by simp [ht0])]
        exact ih hnd.2 hmem2

/-- The run id returned by a successful `set_rule_previous_run` is the id of
a rule_run row carrying the given fingerprint in the final state, whose
rule_run table is the upserted one. -/
theorem set_rule_previous_run_ok_row {st st' : DBState} {f : List Nat}
    {outs : List (String × List Nat)} {r : Nat}
    (h : set_rule_previous_run st f outs = (st', .ok r)) :
    st'.ruleRun = (upsertRuleRun st f).ruleRun ∧
    ∃ row ∈ st'.ruleRun, row.fingerprint = f ∧ row.id = r := by
  obtain ⟨hf, hins⟩ := set_rule_previous_run_ok_elim h
  have hrr : st'.ruleRun = (deleteTargetOutputs (upsertRuleRun st f) r).ruleRun :=
    (insertTargetOutputs_ok_ruleRun hins).1
  have hrr' : st'.ruleRun = (upsertRuleRun st f).ruleRun := hrr
  refine ⟨hrr', ?_⟩
  unfold fetch_rule_previous_run at hf
  obtain ⟨row, hfind, hid⟩ := Option.map_eq_some'.1 hf
  refine ⟨row, ?_, ?_, hid⟩
  · rw [hrr']; exact List.mem_of_find?_eq_some hfind
  · simpa using List.find?_some hfind

/-- `set_rule_previous_run` never invents a rule_run id collision: the id
map of the rule_run table stays duplicate-free. -/
theorem set_rule_previous_run_preserves_nodup {st st' : DBState} {f : List Nat}
    {outs : List (String × List Nat)} {r : Nat}
    (h : set_rule_previous_run st f outs = (st', .ok r))
    (hwf : (st.ruleRun.map RuleRunRow.id).Nodup) :
    (st'.ruleRun.map RuleRunRow.id).Nodup := by
  rw [(set_rule_previous_run_ok_row h).1]
  unfold upsertRuleRun
  split
  · exact hwf
  · rw [List.map_append]
    rw [List.nodup_append]
    refine ⟨hwf, List.nodup_singleton _, ?_⟩
    intro a ha hb
    simp only [List.map_cons, List.map_nil, List.mem_singleton] at hb
    subst hb
    have := le_maxId_of_mem ha
    omega

/-! ### Claim theorems -/

/-- C1: `set_rule_previous_run` executes its four steps as one atomic unit:
when the caller passes duplicate `target_id` values within one call, the
call raises a uniqueness-constraint failure and the store is left exactly
as it was before the call — the upsert, the deletion of the run's old
target_output rows and the partial bulk insert are all rolled back. -/
theorem record_run_duplicate_targets_rolls_back
    (st : DBState) (f : List Nat) (outs : List (String × List Nat))
    (hdup : ¬ (outs.map Prod.fst).Nodup) :
    set_rule_previous_run st f outs = (st, .error .uniqueConstraint) := by
  unfold set_rule_previous_run setRulePreviousRunBody
  obtain ⟨r, hf⟩ := fetch_rule_previous_run_after_upsert st f
  simp only [hf, insertTargetOutputs_error_of_dup hdup]

/-- Witness for C1 at a concrete store and duplicate target list. -/
theorem record_run_duplicate_targets_rolls_back_witness :
    ¬ ((([("a", [1]), ("a", [2])] : List (String × List Nat)).map Prod.fst).Nodup) ∧
    set_rule_previous_run freshDB [7] [("a", [1]), ("a", [2])]
      = (freshDB, .error .uniqueConstraint) :=
  ⟨by decide, record_run_duplicate_targets_rolls_back freshDB [7] _ (by decide)⟩

/-- C4: round-trip — a successful `set_rule_previous_run(f, outs)` followed
by `fetch_rule_previous_run(f)` returns exactly the run id the recording
returned; and `fetch_rule_previous_run` of a fingerprint never recorded
returns nothing. -/
theorem record_run_fetch_previous_run_roundtrip :
    (∀ (st st' : DBState) (f : List Nat) (outs : List (String × List Nat)) (r : Nat),
        set_rule_previous_run st f outs = (st', .ok r) →
        fetch_rule_previous_run st' f = some r) ∧
    (∀ (st : DBState) (f : List Nat),
        (∀ row ∈ st.ruleRun, row.fingerprint ≠ f) →
        fetch_rule_previous_run st f = none) := by
  constructor
  · intro st st' f outs r h
    obtain ⟨hf, -⟩ := set_rule_previous_run_ok_elim h
    obtain ⟨hrr, -⟩ := set_rule_previous_run_ok_row h
    unfold fetch_rule_previous_run at hf ⊢
    rw [hrr]
    exact hf
  · intro st f hnone
    unfold fetch_rule_previous_run
    have : st.ruleRun.find? (fun r => r.fingerprint == f) = none := by
      rw [List.find?_eq_none]
      intro x hx hpx
      exact hnone x hx (by simpa using hpx)
    rw [this]
    rfl

/-- Witness for C4: recording fingerprint `[1]` in the fresh store then
fetching it yields the returned id, and fetching the unrecorded
fingerprint `[2]` yields nothing. -/
theorem record_run_fetch_previous_run_roundtrip_witness :
    fetch_rule_previous_run (set_rule_previous_run freshDB [1] [("a", [5])]).1 [1] = some 1 ∧
    fetch_rule_previous_run freshDB [2] = none :=
  ⟨record_run_fetch_previous_run_roundtrip.1 freshDB _ [1] [("a", [5])] 1 (by rfl),
   record_run_fetch_previous_run_roundtrip.2 freshDB [2] (by decide)⟩

/-- C8: `fetch_target_output_fingerprint(run_id, target_id)` returns the
absent option value for every `(run_id, target_id)` pair never recorded —
no row of the target_output table carries that pair, whether because the
run id is unknown or because the run recorded no output for the target. -/
theorem fetch_output_fingerprint_none_when_never_recorded
    (st : DBState) (runId : Nat) (t : String)
    (h : ∀ row ∈ st.targetOutput, ¬(row.run = runId ∧ row.target = t)) :
    fetch_target_output_fingerprint st runId t = none := by
  unfold fetch_target_output_fingerprint
  have : st.targetOutput.find? (fun row => row.run == runId && row.target == t) = none := by
    rw [List.find?_eq_none]
    intro x hx hpx
    simp only [Bool.and_eq_true, beq_iff_eq] at hpx
    exact h x hx hpx
  rw [this]
  rfl

/-- Witness for C8: a store holding one output row for run 1, target "a";
lookups for an unknown run and for an unrecorded target both yield none. -/
theorem fetch_output_fingerprint_none_when_never_recorded_witness :
    fetch_target_output_fingerprint
      ⟨[⟨1, [1]⟩], [⟨1, 1, "a", [5]⟩], [(VERSION_MAGIC_NUMBER, DB_VERSION)]⟩ 2 "a" = none ∧
    fetch_target_output_fingerprint
      ⟨[⟨1, [1]⟩], [⟨1, 1, "a", [5]⟩], [(VERSION_MAGIC_NUMBER, DB_VERSION)]⟩ 1 "b" = none :=
  ⟨fetch_output_fingerprint_none_when_never_recorded _ 2 "a" (by decide),
   fetch_output_fingerprint_none_when_never_recorded _ 1 "b" (by decide)⟩

/-- C2: idempotence by fingerprint — recording the same fingerprint twice
returns the same run id both times, the second upsert leaves the existing
rule_run row and id untouched, and afterwards the output lookups reflect
exactly the second output set: every pair of `outs2` is found with its
`outs2` fingerprint and any target outside `outs2` (in particular one
recorded only in `outs1`) has no stored fingerprint. -/
theorem record_run_idempotent_by_fingerprint
    (st st1 st2 : DBState) (f : List Nat)
    (outs1 outs2 : List (String × List Nat)) (r1 r2 : Nat)
    (h1 : set_rule_previous_run st f outs1 = (st1, .ok r1))
    (h2 : set_rule_previous_run st1 f outs2 = (st2, .ok r2)) :
    r1 = r2 ∧ st2.ruleRun = st1.ruleRun ∧
    (∀ t fp, (t, fp) ∈ outs2 → fetch_target_output_fingerprint st2 r2 t = some fp) ∧
    (∀ t, t ∉ outs2.map Prod.fst → fetch_target_output_fingerprint st2 r2 t = none) := by
  obtain ⟨hf1, -⟩ := set_rule_previous_run_ok_elim h1
  obtain ⟨hrr1, row1, hrow1mem, hrow1fp, -⟩ := set_rule_previous_run_ok_row h1
  have hup : upsertRuleRun st1 f = st1 := upsertRuleRun_of_mem ⟨row1, hrow1mem, hrow1fp⟩
  obtain ⟨hf2, hins2⟩ := set_rule_previous_run_ok_elim h2
  rw [hup] at hf2 hins2
  have hfetch1 : fetch_rule_previous_run st1 f = some r1 := by
    unfold fetch_rule_previous_run at hf1 ⊢
    rw [hrr1]
    exact hf1
  have hr : r1 = r2 := by
    rw [hfetch1] at hf2
    exact Option.some.inj hf2
  obtain ⟨hrr2, -⟩ := set_rule_previous_run_ok_row h2
  rw [hup] at hrr2
  have hchar : ∀ t : String, fetch_target_output_fingerprint st2 r2 t
      = (outs2.find? (fun o => o.1 == t)).map Prod.snd := by
    intro t
    unfold fetch_target_output_fingerprint
    rw [insertTargetOutputs_fetch hins2 t]
    rw [fetch_delete_none]
    simp [Option.none_or]
  have hnd : (outs2.map Prod.fst).Nodup := insertTargetOutputs_ok_nodup hins2
  refine ⟨hr, hrr2, ?_, ?_⟩
  · intro t fp hmem
    rw [hchar t, find?_fst_of_mem_nodup hnd hmem]
    rfl
  · intro t hnotmem
    rw [hchar t]
    have : outs2.find? (fun o => o.1 == t) = none := by
      rw [List.find?_eq_none]
      intro x hx hpx
      exact hnotmem (List.mem_map.2 ⟨x, hx, by simpa using hpx⟩)
    rw [this]
    rfl

/-- Witness for C2: the spec's own scenario — record `[1]` with output
`("a", AA)`, then record `[1]` again with `[("a", BB), ("b", CC)]`. -/
theorem record_run_idempotent_by_fingerprint_witness :
    (1 : Nat) = 1 ∧
    (set_rule_previous_run (set_rule_previous_run freshDB [1] [("a", [0xAA])]).1 [1]
        [("a", [0xBB]), ("b", [0xCC])]).1.ruleRun
      = (set_rule_previous_run freshDB [1] [("a", [0xAA])]).1.ruleRun ∧
    (∀ t fp, (t, fp) ∈ ([("a", [0xBB]), ("b", [0xCC])] : List (String × List Nat)) →
      fetch_target_output_fingerprint
        (set_rule_previous_run (set_rule_previous_run freshDB [1] [("a", [0xAA])]).1 [1]
          [("a", [0xBB]), ("b", [0xCC])]).1 1 t = some fp) ∧
    (∀ t, t ∉ (([("a", [0xBB]), ("b", [0xCC])] : List (String × List Nat)).map Prod.fst) →
      fetch_target_output_fingerprint
        (set_rule_previous_run (set_rule_previous_run freshDB [1] [("a", [0xAA])]).1 [1]
          [("a", [0xBB]), ("b", [0xCC])]).1 1 t = none) :=
  record_run_idempotent_by_fingerprint freshDB _ _ [1] [("a", [0xAA])]
    [("a", [0xBB]), ("b", [0xCC])] 1 1 (by rfl) (by rfl)

/-- C5: recording two distinct fingerprints returns distinct run ids.  The
well-formedness hypothesis — the rule_run ids are pairwise distinct — is
the `_id INTEGER PRIMARY KEY` table invariant, which holds in the fresh
store and is preserved by `set_rule_previous_run`. -/
theorem record_run_distinct_fingerprints_distinct_ids
    (st st1 st2 : DBState) (f1 f2 : List Nat)
    (outs1 outs2 : List (String × List Nat)) (r1 r2 : Nat)
    (hwf : (st.ruleRun.map RuleRunRow.id).Nodup)
    (hne : f1 ≠ f2)
    (h1 : set_rule_previous_run st f1 outs1 = (st1, .ok r1))
    (h2 : set_rule_previous_run st1 f2 outs2 = (st2, .ok r2)) :
    r1 ≠ r2 := by
  have hwf1 : (st1.ruleRun.map RuleRunRow.id).Nodup :=
    set_rule_previous_run_preserves_nodup h1 hwf
  obtain ⟨-, row1, hrow1mem, hrow1fp, hrow1id⟩ := set_rule_previous_run_ok_row h1
  obtain ⟨-, row2, hrow2mem, hrow2fp, hrow2id⟩ := set_rule_previous_run_ok_row h2
  obtain ⟨hrr2, -⟩ := set_rule_previous_run_ok_row h2
  rw [hrr2] at hrow2mem
  unfold upsertRuleRun at hrow2mem
  by_cases hany : st1.ruleRun.any (fun r => r.fingerprint == f2) = true
  · rw [if_pos hany] at hrow2mem
    intro heq
    have hrows : row1 = row2 :=
      List.inj_on_of_nodup_map hwf1 hrow1mem hrow2mem (by rw [hrow1id, hrow2id, heq])
    apply hne
    rw [← hrow1fp, ← hrow2fp, hrows]
  · rw [if_neg hany] at hrow2mem
    have hr2cases := List.mem_append.1 hrow2mem
    have hrow2new : row2 = ⟨maxId (st1.ruleRun.map RuleRunRow.id) + 1, f2⟩ := by
      rcases hr2cases with hmem | hsing
      · exfalso
        apply hany
        exact List.any_eq_true.2 ⟨row2, hmem, by simp [hrow2fp]⟩
      · simpa using hsing
    have hr1le : r1 ≤ maxId (st1.ruleRun.map RuleRunRow.id) := by
      rw [← hrow1id]
      exact le_maxId_of_mem (List.mem_map.2 ⟨row1, hrow1mem, rfl⟩)
    have hr2eq : r2 = maxId (st1.ruleRun.map RuleRunRow.id) + 1 := by
      rw [← hrow2id, hrow2new]
    omega

/-- Witness for C5: fingerprints `[1]` and `[2]` recorded in sequence on
the fresh store yield run ids 1 and 2. -/
theorem record_run_distinct_fingerprints_distinct_ids_witness :
    (1 : Nat) ≠ 2 :=
  record_run_distinct_fingerprints_distinct_ids freshDB
    (set_rule_previous_run freshDB [1] []).1
    (set_rule_previous_run (set_rule_previous_run freshDB [1] []).1 [2] []).1
    [1] [2] [] [] 1 2 (by decide) (by decide) (by rfl) (by rfl)

/-- C10: frame property — a successful `set_rule_previous_run(f, outs)`
touches only the rule_run row for `f` and the target_output rows owned by
the returned run: the rule_run rows with any other fingerprint, the
target_output rows owned by any other run, and the version table are
exactly as before. -/
theorem record_run_frame
    (st st' : DBState) (f : List Nat) (outs : List (String × List Nat)) (r : Nat)
    (h : set_rule_previous_run st f outs = (st', .ok r)) :
    st'.ruleRun.filter (fun row => !(row.fingerprint == f))
      = st.ruleRun.filter (fun row => !(row.fingerprint == f)) ∧
    st'.targetOutput.filter (fun row => !(row.run == r))
      = st.targetOutput.filter (fun row => !(row.run == r)) ∧
    st'.versionRows = st.versionRows := by
  obtain ⟨-, hins⟩ := set_rule_previous_run_ok_elim h
  obtain ⟨hrr, hver⟩ := insertTargetOutputs_ok_ruleRun hins
  have hfr := insertTargetOutputs_ok_frame hins
  refine ⟨?_, ?_, ?_⟩
  · rw [hrr]
    show (upsertRuleRun st f).ruleRun.filter _ = _
    unfold upsertRuleRun
    split
    · rfl
    · simp [List.filter_append]
  · rw [hfr]
    show ((upsertRuleRun st f).targetOutput.filter _).filter _ = _
    rw [upsertRuleRun_targetOutput, List.filter_filter]
    simp [Bool.and_self]
  · rw [hver]
    show (upsertRuleRun st f).versionRows = st.versionRows
    rw [upsertRuleRun_versionRows]

/-- Witness for C10: re-recording fingerprint `[1]` leaves the rule_run
row for `[2]`, the outputs of run 2, and the version row untouched. -/
theorem record_run_frame_witness :
    ((set_rule_previous_run
        ⟨[⟨1, [1]⟩, ⟨2, [2]⟩], [⟨1, 1, "a", [3]⟩, ⟨2, 2, "b", [4]⟩],
          [(VERSION_MAGIC_NUMBER, DB_VERSION)]⟩ [1] [("c", [9])]).1.ruleRun.filter
        (fun row => !(row.fingerprint == [1]))
      = ([⟨1, [1]⟩, ⟨2, [2]⟩] : List RuleRunRow).filter
          (fun row => !(row.fingerprint == [1]))) ∧
    ((set_rule_previous_run
        ⟨[⟨1, [1]⟩, ⟨2, [2]⟩], [⟨1, 1, "a", [3]⟩, ⟨2, 2, "b", [4]⟩],
          [(VERSION_MAGIC_NUMBER, DB_VERSION)]⟩ [1] [("c", [9])]).1.targetOutput.filter
        (fun row => !(row.run == 1))
      = ([⟨1, 1, "a", [3]⟩, ⟨2, 2, "b", [4]⟩] : List TargetOutputRow).filter
          (fun row => !(row.run == 1))) ∧
    (set_rule_previous_run
        ⟨[⟨1, [1]⟩, ⟨2, [2]⟩], [⟨1, 1, "a", [3]⟩, ⟨2, 2, "b", [4]⟩],
          [(VERSION_MAGIC_NUMBER, DB_VERSION)]⟩ [1] [("c", [9])]).1.versionRows
      = [(VERSION_MAGIC_NUMBER, DB_VERSION)] :=
  record_run_frame
    ⟨[⟨1, [1]⟩, ⟨2, [2]⟩], [⟨1, 1, "a", [3]⟩, ⟨2, 2, "b", [4]⟩],
      [(VERSION_MAGIC_NUMBER, DB_VERSION)]⟩ _ [1] [("c", [9])] 1 (by rfl)

/-- Case split on a successful open: the version read yields no marker row
(TypeError path), a compatible version (existing store returned), or a
detected incompatibility (reset block runs). -/
theorem init_or_reset_db_cases (env : OpenEnv) (hopen : env.openFails = false) :
    (env.read = .noRow ∧ init_or_reset_db env = (.typeError, 1)) ∨
    ((∃ v, env.read = .value v ∧ v = DB_VERSION) ∧
        init_or_reset_db env = (.ready env.content, 1)) ∨
    (detectedIncompatible env ∧ init_or_reset_db env = initReset env) := by
  cases hread : env.read with
  | noRow => exact .inl ⟨rfl, by simp [init_or_reset_db, hopen, hread]⟩
  | opError => exact .inr (.inr ⟨.inl hread, by simp [init_or_reset_db, hopen, hread]⟩)
  | value v =>
      by_cases hv : v = DB_VERSION
      · exact .inr (.inl ⟨⟨v, rfl, hv⟩, by simp [init_or_reset_db, hopen, hread, hv]⟩)
      · exact .inr (.inr ⟨.inr ⟨v, hread, hv⟩, by simp [init_or_reset_db, hopen, hread, hv]⟩)

/-- The reset block terminates in exactly one of three shapes. -/
theorem initReset_cases (env : OpenEnv) :
    initReset env = (.dbError, 0) ∨ initReset env = (.dbError, 1) ∨
    initReset env = (.ready freshDB, 1) := by
  unfold initReset
  rcases env with ⟨o, rd, c, u, ro, rc⟩
  cases u <;> cases ro <;> cases rc <;> simp

/-- The reset block ends with a dangling open connection exactly when the
unlink and the reconnect succeed but the schema recreation fails. -/
theorem initReset_leak_iff (env : OpenEnv) :
    initReset env = (.dbError, 1) ↔
      env.unlink ≠ .otherError ∧ env.reopenFails = false ∧ env.recreateFails = true := by
  unfold initReset
  rcases env with ⟨o, rd, c, u, ro, rc⟩
  cases u <;> cases ro <;> cases rc <;> simp

/-- C3 (documents the code bug): a version table that is present but holds
no marker row makes `init_or_reset_db` raise an uncaught TypeError
(unpacking the None returned by `fetchone()` is not an OperationalError),
leaving the connection open, instead of being handled internally by
destructive reset the way the version-table-absent read failure is. -/
theorem version_marker_missing_raises_uncaught_typeerror :
    ∀ c : DBState,
      init_or_reset_db ⟨false, .noRow, c, .ok, false, false⟩ = (.typeError, 1) ∧
      init_or_reset_db ⟨false, .opError, c, .ok, false, false⟩ = (.ready freshDB, 1) :=
  fun _ => ⟨rfl, rfl⟩

/-- A store holding data (one recorded run with one output) whose version
table exists but contains no marker row. -/
def markerlessStore : DBState :=
  ⟨[⟨1, [1]⟩], [⟨1, 1, "a", [2]⟩], []⟩

/-- C6 counterexample: opening a location holding data whose version
marker is absent (version table present, marker row missing) does NOT
replace the content with a fresh READY store — the call ends in an
uncaught TypeError. -/
theorem open_markerless_store_not_replaced :
    init_or_reset_db ⟨false, .noRow, markerlessStore, .ok, false, false⟩ = (.typeError, 1) ∧
    init_or_reset_db ⟨false, .noRow, markerlessStore, .ok, false, false⟩
      ≠ (.ready freshDB, 1) :=
  ⟨rfl, by decide⟩

/-- C6 (amended): when the incompatibility is detected — the version read
fails operationally (table absent/malformed) or the marker value differs
from the current schema version — the content is fully replaced: the
handle is closed, the file deleted (absence tolerated, any other deletion
failure raising DBError with no connection left open), the three tables
and exactly one current-version marker row are recreated as a fresh empty
READY store, and any failure while reconnecting or recreating raises
DBError. -/
theorem reset_on_detected_incompatibility (env : OpenEnv)
    (hopen : env.openFails = false)
    (hincomp : detectedIncompatible env) :
    (env.unlink = .otherError → init_or_reset_db env = (.dbError, 0)) ∧
    (env.unlink ≠ .otherError → env.reopenFails = true →
        init_or_reset_db env = (.dbError, 0)) ∧
    (env.unlink ≠ .otherError → env.reopenFails = false → env.recreateFails = true →
        (init_or_reset_db env).1 = .dbError) ∧
    (env.unlink ≠ .otherError → env.reopenFails = false → env.recreateFails = false →
        init_or_reset_db env = (.ready freshDB, 1)) ∧
    freshDB.ruleRun = [] ∧ freshDB.targetOutput = [] ∧
    freshDB.versionRows = [(VERSION_MAGIC_NUMBER, DB_VERSION)] := by
  have hmain : init_or_reset_db env = initReset env := by
    rcases hincomp with hread | ⟨v, hread, hv⟩
    · simp [init_or_reset_db, hopen, hread]
    · simp [init_or_reset_db, hopen, hread, hv]
  rw [hmain]
  refine ⟨?_, ?_, ?_, ?_, rfl, rfl, rfl⟩
  · intro hu
    simp [initReset, hu]
  · intro hu hro
    unfold initReset
    cases henv : env.unlink with
    | otherError => exact absurd henv hu
    | ok => simp [hro]
    | fileNotFound => simp [hro]
  · intro hu hro hrc
    unfold initReset
    cases henv : env.unlink with
    | otherError => exact absurd henv hu
    | ok => simp [hro, hrc]
    | fileNotFound => simp [hro, hrc]
  · intro hu hro hrc
    unfold initReset
    cases henv : env.unlink with
    | otherError => exact absurd henv hu
    | ok => simp [hro, hrc]
    | fileNotFound => simp [hro, hrc]

/-- Witness for C6 (amended) at a store carrying data under version value 5. -/
theorem reset_on_detected_incompatibility_witness :
    init_or_reset_db ⟨false, .value 5, markerlessStore, .ok, false, false⟩
      = (.ready freshDB, 1) :=
  (reset_on_detected_incompatibility ⟨false, .value 5, markerlessStore, .ok, false, false⟩
      rfl (.inr ⟨5, rfl, by decide⟩)).2.2.2.1 (by decide) rfl rfl

/-- C7: opening a fresh location — `sqlite3_connect` creates an empty
database file, so the version read raises OperationalError (no `version`
table) and the reset path runs with every step succeeding — produces a
READY store with zero rule_run rows, zero target_output rows and exactly
one version marker row holding the current schema version. -/
theorem open_fresh_location_ready_empty :
    ∀ c : DBState,
      init_or_reset_db ⟨false, .opError, c, .ok, false, false⟩ = (.ready freshDB, 1) ∧
      freshDB.ruleRun = [] ∧ freshDB.targetOutput = [] ∧
      freshDB.versionRows = [(VERSION_MAGIC_NUMBER, DB_VERSION)] :=
  fun _ => ⟨rfl, rfl, rfl, rfl⟩

/-- C9 counterexample: a recreation failure during the schema reset leaves
the freshly reopened connection open — the scoped `connect` never reaches
its try/finally, so the connection is not released on this exit path. -/
theorem connect_leaks_connection_on_recreate_failure :
    connectScope ⟨false, .value 2, freshDB, .ok, false, true⟩ false = (.dbError, 1) ∧
    (connectScope ⟨false, .value 2, freshDB, .ok, false, true⟩ false).2 ≠ 0 :=
  ⟨rfl, by decide⟩

/-- C9 (amended): the scoped `connect` releases the connection on every
exit path — normal completion or body failure, open failure, deletion
failure, reconnect failure, successful reset — except two: a schema
recreation failure (the reopened connection stays open) and a
present-but-empty version table (the TypeError propagates with the first
connection open). -/
theorem connect_releases_connection_except_leak_paths (env : OpenEnv) (bodyFails : Bool)
    (hnoRow : ¬(env.openFails = false ∧ env.read = .noRow))
    (hleak : ¬(env.openFails = false ∧ detectedIncompatible env ∧
                env.unlink ≠ .otherError ∧ env.reopenFails = false ∧
                env.recreateFails = true)) :
    (connectScope env bodyFails).2 = 0 := by
  cases hopen : env.openFails with
  | true => simp [connectScope, init_or_reset_db, hopen]
  | false =>
      rcases init_or_reset_db_cases env hopen with ⟨hread, hinit⟩ | ⟨-, hinit⟩ | ⟨hinc, hinit⟩
      · exact absurd ⟨hopen, hread⟩ hnoRow
      · simp [connectScope, hinit]
      · rcases initReset_cases env with hc | hc | hc
        · simp [connectScope, hinit, hc]
        · exact absurd ⟨hopen, hinc, (initReset_leak_iff env).1 hc⟩ hleak
        · simp [connectScope, hinit, hc]

/-- Witness for C9 (amended): a compatible store, body raising — the
connection count after the scope is zero. -/
theorem connect_releases_connection_except_leak_paths_witness :
    (connectScope ⟨false, .value 1, freshDB, .ok, false, false⟩ true).2 = 0 :=
  connect_releases_connection_except_leak_paths ⟨false, .value 1, freshDB, .ok, false, false⟩
    true (by rintro ⟨-, h⟩; cases h) (by rintro ⟨-, -, -, -, h⟩; cases h)
